import Mathlib

set_option maxRecDepth 20000

/-!
# Verification of the 1C → PostgreSQL sync engine (`sync_1c_full.py`)

A shallow embedding, in Lean 4, of the ingestion script of this repository:
the resilient paginator (`get_all_documents` / `find_problem_doc`), the
reference resolver (`get_name_by_key`), the document flatteners inside
`sync_purchases` / `sync_sales`, and the windowed store writers
(`_save_purchases` / `_save_sales`), together with theorems about them.

Modelling conventions:
* Python floats are modelled as exact rationals (`ℚ`); the claims under
  study are about field selection and arithmetic shape, not binary
  float precision.
* A JSON field that may be absent is an `Option`; `dict.get(f, 0)`
  followed by `or 0` is `Option.getD 0`, and Python truthiness on
  numbers / strings is an explicit comparison with `0` / `""`.
* Document dates: the script slices `doc['Date'][:10]` and parses it
  with `strptime`.  We model the parse result directly: `date : Option Int`
  is the parsed calendar day (`none` = the field was missing or failed to
  parse), so the window test `date_from <= d <= date_to` becomes integer
  comparison.
* HTTP: a page request is a function of the `$skip` / `$top` parameters;
  `none` (or an explicit error constructor) models a transport error or a
  non-success status.  The remote is a parameter, so theorems quantify
  over server behaviours.
-/

/-- The all-zero sentinel UUID (`EMPTY_UUID` in `sync_1c_full.py`). -/
def EMPTY_UUID : String := "00000000-0000-0000-0000-000000000000"

/-- `float(d.get(f, 0) or 0)`: an absent (or zero) numeric field is coerced
to `0`. -/
def numOr0 (x : Option ℚ) : ℚ := x.getD 0

/-- `float(item.get('СуммаСНДС', 0) or item.get('Сумма', 0) or 0)` —
Python truthiness chain over two optional numeric fields: the first field
wins when present and nonzero, otherwise the second when present and
nonzero, otherwise `0`. -/
def orChain2 (a b : Option ℚ) : ℚ :=
  if numOr0 a ≠ 0 then numOr0 a else if numOr0 b ≠ 0 then numOr0 b else 0

/-- Python `x or y` on optional strings: `x` wins iff it is a present,
non-empty string (`None` and `''` are both falsy). -/
def pyOrStr (a b : Option String) : Option String :=
  match a with
  | some s => if s ≠ "" then some s else b
  | none => b

/-- Floor of a rational, computably (`Int.fdiv` floors because `den > 0`). -/
def ratFloor (x : ℚ) : ℤ := Int.fdiv x.num (x.den : ℤ)

/-- Python 3 `round(x, d)`: round to `d` decimal places, ties to even
(banker's rounding), modelled on exact rationals. -/
def pyRound (d : Nat) (x : ℚ) : ℚ :=
  let m : ℚ := ((10 : ℕ) ^ d : ℕ)
  let y := x * m
  let f := ratFloor y
  let frac := y - (f : ℚ)
  (if frac < 1/2 then (f : ℚ)
   else if 1/2 < frac then ((f + 1 : ℤ) : ℚ)
   else if f % 2 = 0 then (f : ℚ) else ((f + 1 : ℤ) : ℚ)) / m

/-- `date_from <= doc_date <= date_to` on a parsed (optional) date; a
document whose date is missing or unparseable never matches (`except:
continue`). -/
def inWindow (lo hi : Int) (d : Option Int) : Bool :=
  match d with
  | some x => decide (lo ≤ x ∧ x ≤ hi)
  | none => false

/-! ## Reference resolver (`Sync1C.get_name_by_key`, lines 229-251)

The cache is an association list `key ↦ name`; the remote single-entity
lookup is a function `server : catalog → key → Option name` (`none` =
timeout / non-200 / malformed body, i.e. any path of the Python code that
falls through to `return None`).  The result records the number of
network requests issued. -/

structure ResolveResult where
  result : Option String
  cache : List (String × String)
  requests : Nat
deriving DecidableEq, Repr

/-- `Sync1C.get_name_by_key(cache, catalog_name, key)`: sentinel/empty key
short-circuits to `None`; then the cache; then one remote lookup whose
success is cached and whose failure is not. -/
def get_name_by_key (server : String → String → Option String)
    (cache : List (String × String)) (catalog_name key : String) : ResolveResult :=
  if key = "" ∨ key = EMPTY_UUID then ⟨none, cache, 0⟩
  else
    match cache.lookup key with
    | some name => ⟨some name, cache, 0⟩
    | none =>
      match server catalog_name key with
      | some name => ⟨some name, (key, name) :: cache, 1⟩
      | none => ⟨none, cache, 1⟩

/-- C9: For every key that is empty or equals the all-zero sentinel UUID,
`get_name_by_key` returns null immediately, touches no cache state, and
issues zero network requests — for every catalog name, cache state and
server behaviour. -/
theorem get_name_by_key_sentinel_null_no_request
    (server : String → String → Option String)
    (cache : List (String × String)) (catalog_name key : String)
    (h : key = "" ∨ key = EMPTY_UUID) :
    get_name_by_key server cache catalog_name key = ⟨none, cache, 0⟩ := by
  unfold get_name_by_key
  simp [h]

/-- Witness for C9 at the concrete sentinel key and a server that would
answer if it were ever consulted. -/
theorem get_name_by_key_sentinel_null_no_request_witness :
    (EMPTY_UUID = "" ∨ EMPTY_UUID = EMPTY_UUID) ∧
    get_name_by_key (fun _ _ => some "name") [("k", "v")] "Catalog_Партнеры" EMPTY_UUID
      = ⟨none, [("k", "v")], 0⟩ :=
  ⟨Or.inr rfl,
   get_name_by_key_sentinel_null_no_request (fun _ _ => some "name") [("k", "v")]
     "Catalog_Партнеры" EMPTY_UUID (Or.inr rfl)⟩

/-! ## Document data model

Field names follow the OData payload read by `sync_1c_full.py`
(`Количество` = quantity, `Цена` = price, `Сумма` = sum without VAT,
`СуммаСНДС` = sum with VAT, `Номенклатура_Key` = nomenclature reference,
`Товары` = goods line items, `Расхождения` = correction discrepancies). -/

/-- One line item of `Товары` / `Расхождения`.  String keys default to
`""` (absent / falsy); numeric fields are `none` when absent. -/
structure LineItem where
  nomKey : String := ""
  quantity : Option ℚ := none
  price : Option ℚ := none
  summaNoVat : Option ℚ := none
  summaWithVat : Option ℚ := none
deriving DecidableEq, Repr

/-- Header + line items of `Document_РеализацияТоваровУслуг` /
`Document_КорректировкаРеализации`.  `pallets` models the parsed value of
`АгросервисИТ_КоличествоПаллетов` (`none` = absent, falsy or unparseable,
all of which the script coerces to `0`); the logistics fields likewise. -/
structure SalesDoc where
  date : Option Int := none
  number : String := ""
  refKey : String := ""
  partnerKey : String := ""
  contractorKey : String := ""
  consigneeKey : String := ""
  pallets : Option ℚ := none
  logisticsFact : Option ℚ := none
  logisticsPlan : Option ℚ := none
  items : List LineItem := []
  discrepancies : List LineItem := []
deriving DecidableEq, Repr

/-- Header + line items of `Document_ПриобретениеТоваровУслуг`. -/
structure PurchaseDoc where
  date : Option Int := none
  number : String := ""
  contractorKey : String := ""
  items : List LineItem := []
deriving DecidableEq, Repr

/-- A row of the `purchase_prices` table, as built by `sync_purchases`. -/
structure PurchaseRecord where
  doc_date : Option Int
  doc_number : String
  contractor_id : Option String
  contractor_name : Option String
  nomenclature_id : Option String
  nomenclature_name : Option String
  quantity : ℚ
  price : ℚ
  sum_total : ℚ
deriving DecidableEq, Repr

/-- A row of the `sales` table, as built by `sync_sales` (for primary
documents and for corrections alike). -/
structure SalesRecord where
  doc_type : String
  doc_date : Option Int
  doc_number : String
  doc_id : String
  client_id : Option String
  client_name : Option String
  consignee_id : Option String
  consignee_name : Option String
  nomenclature_id : String
  nomenclature_name : Option String
  nomenclature_type : Option String
  quantity : ℚ
  price : ℚ
  sum_without_vat : ℚ
  sum_with_vat : ℚ
  pallets_count : ℚ
  logistics_cost_fact : ℚ
  logistics_cost_plan : ℚ
deriving DecidableEq, Repr

/-! ## Purchases flattener (`Sync1C.sync_purchases`, lines 732-763)

Name resolution (`self.get_name_by_key(...)`) is abstracted as a read-only
oracle `nameOf : catalog → key → Option name`; the in-run cache only
memoises the remote lookup (see `get_name_by_key` above) and does not
change which records are produced. -/

/-- The zero or one `purchase_prices` rows contributed by one line item of
one (already date-filtered) purchase document — the body of the inner
`for item in doc.get('Товары', [])` loop. -/
def purchaseItemRecords (nameOf : String → String → Option String)
    (doc_date : Option Int) (doc_number contractor_key : String)
    (contractor_name : Option String) (item : LineItem) : List PurchaseRecord :=
  let nom_key := item.nomKey
  let nom_name := nameOf "Catalog_Номенклатура" nom_key
  let quantity := numOr0 item.quantity
  let price := numOr0 item.price
  let summa := orChain2 item.summaWithVat item.summaNoVat
  if 0 < quantity then
    [{ doc_date := doc_date
       doc_number := doc_number
       contractor_id := if contractor_key ≠ EMPTY_UUID then some contractor_key else none
       contractor_name := contractor_name
       nomenclature_id := if nom_key ≠ EMPTY_UUID then some nom_key else none
       nomenclature_name := nom_name
       quantity := pyRound 3 quantity
       price := pyRound 2 price
       sum_total := pyRound 2 summa }]
  else []

/-- All rows contributed by one purchase document. -/
def purchaseDocRecords (nameOf : String → String → Option String)
    (doc : PurchaseDoc) : List PurchaseRecord :=
  let contractor_name := nameOf "Catalog_Контрагенты" doc.contractorKey
  doc.items.flatMap
    (purchaseItemRecords nameOf doc.date doc.number doc.contractorKey contractor_name)

/-- The full record list of `sync_purchases`: date-filter the fetched
documents into the window, then flatten each. -/
def sync_purchases_records (nameOf : String → String → Option String)
    (docs : List PurchaseDoc) (lo hi : Int) : List PurchaseRecord :=
  (docs.filter (fun doc => inWindow lo hi doc.date)).flatMap (purchaseDocRecords nameOf)

/-! ## Sales flattener (`Sync1C.sync_sales`, lines 546-666) -/

/-- The zero or one `sales` rows contributed by one line item of a primary
sales document (`doc_type = 'Реализация'`): the item is dropped when its
nomenclature reference is empty/sentinel or its quantity is zero; price
and both sums are read directly from the item; pallets and logistics are
the header-level values replicated onto the row. -/
def salesItemRecords (nameOf : String → String → Option String)
    (doc : SalesDoc) (client_key : String)
    (client_name consignee_name : Option String)
    (palletsv logistics_fact logistics_plan : ℚ) (item : LineItem) : List SalesRecord :=
  if item.nomKey = "" ∨ item.nomKey = EMPTY_UUID then []
  else
    let nom_name := nameOf "Catalog_Номенклатура" item.nomKey
    let quantity := numOr0 item.quantity
    let price := numOr0 item.price
    let sum_without_vat := numOr0 item.summaNoVat
    let sum_with_vat := numOr0 item.summaWithVat
    if quantity = 0 then []
    else
      [{ doc_type := "Реализация"
         doc_date := doc.date
         doc_number := doc.number
         doc_id := doc.refKey
         client_id := if client_key ≠ EMPTY_UUID then some client_key else none
         client_name := client_name
         consignee_id :=
           if doc.consigneeKey ≠ "" ∧ doc.consigneeKey ≠ EMPTY_UUID
           then some doc.consigneeKey else none
         consignee_name := consignee_name
         nomenclature_id := item.nomKey
         nomenclature_name := nom_name
         nomenclature_type := none
         quantity := quantity
         price := price
         sum_without_vat := sum_without_vat
         sum_with_vat := sum_with_vat
         pallets_count := palletsv
         logistics_cost_fact := logistics_fact
         logistics_cost_plan := logistics_plan }]

/-- All rows contributed by one primary sales document, including the
header-level client/consignee resolution and pallet/logistics coercions. -/
def salesDocRecords (nameOf : String → String → Option String)
    (doc : SalesDoc) : List SalesRecord :=
  let client_key := if doc.partnerKey ≠ "" then doc.partnerKey else doc.contractorKey
  let client_name :=
    pyOrStr (nameOf "Catalog_Партнеры" client_key) (nameOf "Catalog_Контрагенты" client_key)
  let consignee_name :=
    if doc.consigneeKey ≠ "" ∧ doc.consigneeKey ≠ EMPTY_UUID
    then nameOf "Catalog_Партнеры" doc.consigneeKey else none
  doc.items.flatMap
    (salesItemRecords nameOf doc client_key client_name consignee_name
      (numOr0 doc.pallets) (numOr0 doc.logisticsFact) (numOr0 doc.logisticsPlan))

/-- The zero or one `sales` rows contributed by one line item
(`Расхождения`) of a correction document (`doc_type = 'Корректировка'`):
the unit price is derived as `Сумма / Количество` (the sum **without**
VAT over the quantity, `0` when the quantity is zero), rounded to 2
places; pallets and logistics are hard-coded to `0`.  Note: unlike
primary documents, a zero-quantity item is **not** dropped here. -/
def correctionItemRecords (nameOf : String → String → Option String)
    (doc : SalesDoc) (client_key : String)
    (client_name consignee_name : Option String) (item : LineItem) : List SalesRecord :=
  if item.nomKey = "" ∨ item.nomKey = EMPTY_UUID then []
  else
    let nom_name := nameOf "Catalog_Номенклатура" item.nomKey
    let quantity := numOr0 item.quantity
    let sum_without_vat := numOr0 item.summaNoVat
    let sum_with_vat := numOr0 item.summaWithVat
    let price := if quantity ≠ 0 then sum_without_vat / quantity else 0
    [{ doc_type := "Корректировка"
       doc_date := doc.date
       doc_number := doc.number
       doc_id := doc.refKey
       client_id := if client_key ≠ EMPTY_UUID then some client_key else none
       client_name := client_name
       consignee_id :=
         if doc.consigneeKey ≠ "" ∧ doc.consigneeKey ≠ EMPTY_UUID
         then some doc.consigneeKey else none
       consignee_name := consignee_name
       nomenclature_id := item.nomKey
       nomenclature_name := nom_name
       nomenclature_type := none
       quantity := quantity
       price := pyRound 2 price
       sum_without_vat := sum_without_vat
       sum_with_vat := sum_with_vat
       pallets_count := 0
       logistics_cost_fact := 0
       logistics_cost_plan := 0 }]

/-- All rows contributed by one correction document (its client name is
looked up in `Catalog_Партнеры` only). -/
def correctionDocRecords (nameOf : String → String → Option String)
    (doc : SalesDoc) : List SalesRecord :=
  let client_key := if doc.partnerKey ≠ "" then doc.partnerKey else doc.contractorKey
  let client_name := nameOf "Catalog_Партнеры" client_key
  let consignee_name :=
    if doc.consigneeKey ≠ "" ∧ doc.consigneeKey ≠ EMPTY_UUID
    then nameOf "Catalog_Партнеры" doc.consigneeKey else none
  doc.discrepancies.flatMap
    (correctionItemRecords nameOf doc client_key client_name consignee_name)

/-- The full record list of `sync_sales`: primary documents first, then
corrections, each list already date-filtered into the window during the
fetch loops. -/
def sync_sales_records (nameOf : String → String → Option String)
    (salesDocs corrDocs : List SalesDoc) (lo hi : Int) : List SalesRecord :=
  (salesDocs.filter (fun doc => inWindow lo hi doc.date)).flatMap (salesDocRecords nameOf)
    ++ (corrDocs.filter (fun doc => inWindow lo hi doc.date)).flatMap
        (correctionDocRecords nameOf)

/-! ## C1: purchase unit price is *not* derived from the total -/

/-- A purchase line item with quantity 10, zero price and tax-inclusive
total 150 — the example of the claimed derivation rule. -/
def c1PriceItem : LineItem :=
  { nomKey := "n1", quantity := some 10, price := some 0, summaWithVat := some 150 }

/-- A purchase line item with quantity 0 (and a total), for the drop rule. -/
def c1ZeroQtyItem : LineItem :=
  { nomKey := "n1", quantity := some 0, summaWithVat := some 150 }

/-- C1 (counterexample): on the claim's own example — quantity 10, price 0,
tax-inclusive total 150 — `sync_purchases` emits a record with unit price
`0`, not `150 / 10 = 15`: no derivation from the total happens. -/
theorem purchase_price_zero_not_derived_cex :
    (purchaseItemRecords (fun _ _ => none) (some 0) "7" "c" none c1PriceItem).map
        PurchaseRecord.price = [0]
      ∧ (0 : ℚ) ≠ 150 / 10 := by
  constructor
  · with_unfolding_all decide
  · with_unfolding_all decide

/-- C1 (amended): the flattened purchase record's unit price is always the
line item's own price field, rounded to 2 places (so a zero price stays
zero whatever the totals say), and every line item with non-positive
quantity contributes no record. -/
theorem purchase_price_read_directly (nameOf : String → String → Option String)
    (d : Option Int) (num ck : String) (cn : Option String) (item : LineItem) :
    (0 < numOr0 item.quantity →
      (purchaseItemRecords nameOf d num ck cn item).map PurchaseRecord.price
        = [pyRound 2 (numOr0 item.price)])
    ∧ (numOr0 item.quantity ≤ 0 → purchaseItemRecords nameOf d num ck cn item = []) := by
  unfold purchaseItemRecords
  constructor
  · intro h
    simp [h]
  · intro h
    simp [not_lt.mpr h]

/-- Witness for C1 (amended) on the claim's two example items. -/
theorem purchase_price_read_directly_witness :
    ((0 : ℚ) < numOr0 c1PriceItem.quantity
      ∧ (purchaseItemRecords (fun _ _ => none) (some 0) "7" "c" none c1PriceItem).map
          PurchaseRecord.price = [pyRound 2 (numOr0 c1PriceItem.price)])
    ∧ (numOr0 c1ZeroQtyItem.quantity ≤ 0
      ∧ purchaseItemRecords (fun _ _ => none) (some 0) "7" "c" none c1ZeroQtyItem = []) :=
  ⟨⟨by with_unfolding_all decide,
    (purchase_price_read_directly (fun _ _ => none) (some 0) "7" "c" none c1PriceItem).1
      (by with_unfolding_all decide)⟩,
   ⟨by with_unfolding_all decide,
    (purchase_price_read_directly (fun _ _ => none) (some 0) "7" "c" none c1ZeroQtyItem).2
      (by with_unfolding_all decide)⟩⟩

/-! ## C2: correction unit price is derived from the tax-*exclusive* sum -/

/-- A correction line item with quantity 5 and tax-inclusive total 50 (the
claim's example); the tax-exclusive sum is absent. -/
def c2InclItem : LineItem :=
  { nomKey := "n2", quantity := some 5, summaWithVat := some 50 }

/-- C2 (counterexample): on the claim's example — quantity 5, tax-inclusive
total 50 — the correction record's unit price is `0` (the absent
tax-exclusive `Сумма` coerces to `0`, and `0 / 5 = 0`), not `10`: the
derivation divides the tax-exclusive sum, not the tax-inclusive one. -/
theorem correction_price_not_tax_inclusive_cex :
    (correctionItemRecords (fun _ _ => none) {} "" none none c2InclItem).map
        SalesRecord.price = [0]
      ∧ (0 : ℚ) ≠ 50 / 5 := by
  constructor
  · with_unfolding_all decide
  · with_unfolding_all decide

/-- C2 (amended): every correction record's unit price is derived as the
tax-**exclusive** total (`Сумма`) divided by the quantity (`0` when the
quantity is zero), rounded to 2 places — never read from the line item's
price field — and its pallets count and both logistics costs are `0`
regardless of the document header's pallet/logistics fields. -/
theorem correction_price_from_sum_without_vat (nameOf : String → String → Option String)
    (doc : SalesDoc) :
    ∀ r ∈ correctionDocRecords nameOf doc,
      r.pallets_count = 0 ∧ r.logistics_cost_fact = 0 ∧ r.logistics_cost_plan = 0
      ∧ ∃ item ∈ doc.discrepancies,
          r.quantity = numOr0 item.quantity
          ∧ r.price = pyRound 2 (if numOr0 item.quantity ≠ 0
              then numOr0 item.summaNoVat / numOr0 item.quantity else 0) := by
  intro r hr
  unfold correctionDocRecords at hr
  rw [List.mem_flatMap] at hr
  obtain ⟨item, hitem, hr⟩ := hr
  unfold correctionItemRecords at hr
  by_cases hkey : item.nomKey = "" ∨ item.nomKey = EMPTY_UUID
  · simp [hkey] at hr
  · simp only [hkey, if_false, List.mem_singleton] at hr
    subst hr
    exact ⟨rfl, rfl, rfl, item, hitem, rfl, rfl⟩

/-- A correction document whose header carries nonzero pallets and
logistics values, and one discrepancy item with quantity 5 and
tax-exclusive total 50. -/
def c2Doc : SalesDoc :=
  { pallets := some 7, logisticsFact := some 3, logisticsPlan := some 4,
    discrepancies := [{ nomKey := "n2", quantity := some 5, summaNoVat := some 50 }] }

/-- The row `c2Doc` flattens to: unit price `50 / 5 = 10`, pallets and
logistics zeroed despite the header. -/
def c2Row : SalesRecord :=
  { doc_type := "Корректировка", doc_date := none, doc_number := "", doc_id := "",
    client_id := some "", client_name := none, consignee_id := none, consignee_name := none,
    nomenclature_id := "n2", nomenclature_name := none, nomenclature_type := none,
    quantity := 5, price := 10, sum_without_vat := 50, sum_with_vat := 0,
    pallets_count := 0, logistics_cost_fact := 0, logistics_cost_plan := 0 }

/-- Witness for C2 (amended): the concrete record of `c2Doc` has derived
price `10.00` and zeroed pallets/logistics. -/
theorem correction_price_from_sum_without_vat_witness :
    c2Row ∈ correctionDocRecords (fun _ _ => none) c2Doc
    ∧ (c2Row.pallets_count = 0 ∧ c2Row.logistics_cost_fact = 0
        ∧ c2Row.logistics_cost_plan = 0
        ∧ ∃ item ∈ c2Doc.discrepancies,
            c2Row.quantity = numOr0 item.quantity
            ∧ c2Row.price = pyRound 2 (if numOr0 item.quantity ≠ 0
                then numOr0 item.summaNoVat / numOr0 item.quantity else 0)) :=
  ⟨by with_unfolding_all decide,
   correction_price_from_sum_without_vat (fun _ _ => none) c2Doc c2Row (by with_unfolding_all decide)⟩

/-! ## C8: sentinel nomenclature references -/

/-- A line item whose nomenclature reference is the all-zero sentinel,
with positive quantity. -/
def c8SentinelItem : LineItem := { nomKey := EMPTY_UUID, quantity := some 1 }

/-- C8 (counterexample): in the purchases stage a line item whose
nomenclature reference equals the sentinel UUID is **not** dropped — with
positive quantity it still produces one record (with a null nomenclature
id). -/
theorem purchase_sentinel_item_kept_cex :
    (purchaseItemRecords (fun _ _ => none) (some 0) "7" "c" none c8SentinelItem).length = 1
      ∧ (purchaseItemRecords (fun _ _ => none) (some 0) "7" "c" none c8SentinelItem).map
          PurchaseRecord.nomenclature_id = [none] := by
  constructor
  · with_unfolding_all decide
  · with_unfolding_all decide

/-- C8 (amended): a line item whose nomenclature reference is empty or the
sentinel UUID produces no record in the primary-sales and corrections
stages; the purchases stage keeps such an item (one record whenever its
quantity is positive, with the nomenclature id nulled exactly for the
sentinel key). -/
theorem sentinel_nomenclature_drop_rules (nameOf : String → String → Option String)
    (doc : SalesDoc) (ck : String) (cn cgn : Option String) (pv lf lp : ℚ)
    (d : Option Int) (num ck2 : String) (cn2 : Option String) (item : LineItem)
    (h : item.nomKey = "" ∨ item.nomKey = EMPTY_UUID) :
    salesItemRecords nameOf doc ck cn cgn pv lf lp item = []
    ∧ correctionItemRecords nameOf doc ck cn cgn item = []
    ∧ (0 < numOr0 item.quantity →
        (purchaseItemRecords nameOf d num ck2 cn2 item).map PurchaseRecord.nomenclature_id
          = [if item.nomKey ≠ EMPTY_UUID then some item.nomKey else none]) := by
  refine ⟨?_, ?_, ?_⟩
  · unfold salesItemRecords
    simp [h]
  · unfold correctionItemRecords
    simp [h]
  · intro hq
    unfold purchaseItemRecords
    simp [hq]

/-- Witness for C8 (amended) at the concrete sentinel item. -/
theorem sentinel_nomenclature_drop_rules_witness :
    (c8SentinelItem.nomKey = "" ∨ c8SentinelItem.nomKey = EMPTY_UUID)
    ∧ (salesItemRecords (fun _ _ => none) {} "" none none 0 0 0 c8SentinelItem = []
        ∧ correctionItemRecords (fun _ _ => none) {} "" none none c8SentinelItem = []
        ∧ ((0 : ℚ) < numOr0 c8SentinelItem.quantity
            ∧ (purchaseItemRecords (fun _ _ => none) (some 0) "7" "c" none
                c8SentinelItem).map PurchaseRecord.nomenclature_id
              = [if c8SentinelItem.nomKey ≠ EMPTY_UUID then some c8SentinelItem.nomKey
                 else none])) :=
  have h : c8SentinelItem.nomKey = "" ∨ c8SentinelItem.nomKey = EMPTY_UUID := Or.inr rfl
  have main := sentinel_nomenclature_drop_rules (fun _ _ => none) {} "" none none 0 0 0
    (some 0) "7" "c" none c8SentinelItem h
  ⟨h, main.1, main.2.1, by with_unfolding_all decide, main.2.2 (by with_unfolding_all decide)⟩

/-! ## Store writer (`_save_sales` lines 673-709, `_save_purchases` lines 770-798)

psycopg2 connections run with autocommit off: every `cursor.execute`
joins the connection's current transaction (opening one on first use) and
nothing becomes durable until `conn.commit()`.  A connection is therefore
modelled as the durable table contents plus an optional open-transaction
view of the table. -/

structure Conn (ρ : Type) where
  committed : List ρ
  txn : Option (List ρ)
deriving DecidableEq, Repr

/-- Open a transaction if none is open (implicit in psycopg2's first
`execute`). -/
def beginIfNeeded {ρ : Type} (c : Conn ρ) : Conn ρ :=
  match c.txn with
  | some _ => c
  | none => { c with txn := some c.committed }

/-- `cursor.execute("DELETE FROM t WHERE p")` inside the transaction. -/
def execDelete {ρ : Type} (p : ρ → Bool) (c : Conn ρ) : Conn ρ :=
  let c := beginIfNeeded c
  { c with txn := c.txn.map (fun t => t.filter (fun r => ¬ p r)) }

/-- `execute_values(cur, "INSERT INTO t ...", rows)` inside the
transaction. -/
def execInsert {ρ : Type} (rows : List ρ) (c : Conn ρ) : Conn ρ :=
  let c := beginIfNeeded c
  { c with txn := c.txn.map (fun t => t ++ rows) }

/-- `conn.commit()`: publish the transaction view as the durable state. -/
def commitConn {ρ : Type} (c : Conn ρ) : Conn ρ :=
  match c.txn with
  | some t => { committed := t, txn := none }
  | none => c

/-- `Sync1C._save_sales(conn, records, date_from, date_to)`: delete the
window, bulk-insert, commit.  `insert_ok = false` models `execute_values`
raising: the exception propagates before `conn.commit()` is reached, so
the connection is returned with its transaction still open
(`Except.error` marks the raised exception). -/
def save_sales (c : Conn SalesRecord) (records : List SalesRecord) (lo hi : Int)
    (insert_ok : Bool) : Except String Unit × Conn SalesRecord :=
  let c1 := execDelete (fun r => inWindow lo hi r.doc_date) c
  if insert_ok then (Except.ok (), commitConn (execInsert records c1))
  else (Except.error "execute_values failed", c1)

/-- `Sync1C._save_purchases(conn, records, date_from, date_to)`: identical
shape over the `purchase_prices` table. -/
def save_purchases (c : Conn PurchaseRecord) (records : List PurchaseRecord) (lo hi : Int)
    (insert_ok : Bool) : Except String Unit × Conn PurchaseRecord :=
  let c1 := execDelete (fun r => inWindow lo hi r.doc_date) c
  if insert_ok then (Except.ok (), commitConn (execInsert records c1))
  else (Except.error "execute_values failed", c1)

/-- C6: for every windowed replace of sales or purchase rows, if the bulk
insert fails after the delete was issued, the durable store is unchanged:
the delete is confined to the still-open transaction (visible in `txn`)
and is never committed on its own. -/
theorem save_window_delete_not_durable_on_insert_failure
    (cs : Conn SalesRecord) (cp : Conn PurchaseRecord)
    (salesRows : List SalesRecord) (purchRows : List PurchaseRecord) (lo hi : Int)
    (hs : cs.txn = none) (hp : cp.txn = none) :
    ((save_sales cs salesRows lo hi false).2.committed = cs.committed
      ∧ (save_sales cs salesRows lo hi false).2.txn
          = some (cs.committed.filter (fun r => ¬ inWindow lo hi r.doc_date)))
    ∧ ((save_purchases cp purchRows lo hi false).2.committed = cp.committed
      ∧ (save_purchases cp purchRows lo hi false).2.txn
          = some (cp.committed.filter (fun r => ¬ inWindow lo hi r.doc_date))) := by
  constructor
  · unfold save_sales execDelete beginIfNeeded
    rw [hs]
    exact ⟨rfl, rfl⟩
  · unfold save_purchases execDelete beginIfNeeded
    rw [hp]
    exact ⟨rfl, rfl⟩

/-- A prior sales row inside the window `[0, 10]`. -/
def c6Row : SalesRecord :=
  { doc_type := "Реализация", doc_date := some 5, doc_number := "1", doc_id := "d",
    client_id := none, client_name := none, consignee_id := none, consignee_name := none,
    nomenclature_id := "n", nomenclature_name := none, nomenclature_type := none,
    quantity := 1, price := 2, sum_without_vat := 2, sum_with_vat := 2,
    pallets_count := 0, logistics_cost_fact := 0, logistics_cost_plan := 0 }

/-- Witness for C6: a store holding one in-window sales row survives a
failed windowed replace untouched (and likewise an empty purchase
store). -/
theorem save_window_delete_not_durable_on_insert_failure_witness :
    ((⟨[c6Row], none⟩ : Conn SalesRecord).txn = none
      ∧ (⟨[], none⟩ : Conn PurchaseRecord).txn = none)
    ∧ (save_sales ⟨[c6Row], none⟩ [] 0 10 false).2.committed = [c6Row] :=
  ⟨⟨rfl, rfl⟩,
   (save_window_delete_not_durable_on_insert_failure ⟨[c6Row], none⟩ ⟨[], none⟩ [] [] 0 10
     rfl rfl).1.1⟩

/-! ## Document stage store effect (`sync_purchases` lines 765-768,
`sync_sales` lines 668-671)

Each document stage computes its record list and calls `_save_*` only
when that list is non-empty (`if records:`); on success the committed
table is the windowed replace of the previous contents. -/

/-- The durable `purchase_prices` table after `sync_purchases` runs
against fetched documents `docs` over window `[lo, hi]` (successful
insert). -/
def sync_purchases_store (nameOf : String → String → Option String)
    (docs : List PurchaseDoc) (lo hi : Int) (db : List PurchaseRecord) :
    List PurchaseRecord :=
  let records := sync_purchases_records nameOf docs lo hi
  if records.isEmpty then db
  else ((save_purchases ⟨db, none⟩ records lo hi true).2).committed

/-- The durable `sales` table after `sync_sales` runs against fetched
primary documents and corrections over window `[lo, hi]` (successful
insert). -/
def sync_sales_store (nameOf : String → String → Option String)
    (salesDocs corrDocs : List SalesDoc) (lo hi : Int) (db : List SalesRecord) :
    List SalesRecord :=
  let records := sync_sales_records nameOf salesDocs corrDocs lo hi
  if records.isEmpty then db
  else ((save_sales ⟨db, none⟩ records lo hi true).2).committed

/-! ## C7: idempotence of the windowed document sync -/

/-- Every record `sync_purchases` emits carries the date of a document
that passed the window filter. -/
theorem mem_purchaseItemRecords_doc_date
    (nameOf : String → String → Option String) (d : Option Int) (num ck : String)
    (cn : Option String) (item : LineItem) (r : PurchaseRecord)
    (hr : r ∈ purchaseItemRecords nameOf d num ck cn item) : r.doc_date = d := by
  by_cases h : 0 < numOr0 item.quantity
  · simp only [purchaseItemRecords, h, if_true, List.mem_singleton] at hr
    subst hr
    rfl
  · simp [purchaseItemRecords, h] at hr

theorem sync_purchases_records_inWindow
    (nameOf : String → String → Option String) (docs : List PurchaseDoc) (lo hi : Int) :
    ∀ r ∈ sync_purchases_records nameOf docs lo hi, inWindow lo hi r.doc_date = true := by
  intro r hr
  unfold sync_purchases_records at hr
  rw [List.mem_flatMap] at hr
  obtain ⟨doc, hdoc, hr⟩ := hr
  rw [List.mem_filter] at hdoc
  unfold purchaseDocRecords at hr
  rw [List.mem_flatMap] at hr
  obtain ⟨item, _, hr⟩ := hr
  rw [mem_purchaseItemRecords_doc_date _ _ _ _ _ _ _ hr]
  exact hdoc.2

/-- Every record a primary sales document emits carries that document's
date. -/
theorem mem_salesDocRecords_doc_date
    (nameOf : String → String → Option String) (doc : SalesDoc) (r : SalesRecord)
    (hr : r ∈ salesDocRecords nameOf doc) : r.doc_date = doc.date := by
  unfold salesDocRecords at hr
  rw [List.mem_flatMap] at hr
  obtain ⟨item, _, hr⟩ := hr
  unfold salesItemRecords at hr
  by_cases hkey : item.nomKey = "" ∨ item.nomKey = EMPTY_UUID
  · simp [hkey] at hr
  · simp only [hkey, if_false] at hr
    by_cases hq : numOr0 item.quantity = 0
    · simp [hq] at hr
    · simp only [hq, if_false, List.mem_singleton] at hr
      subst hr
      rfl

/-- Every record a correction document emits carries that document's
date. -/
theorem mem_correctionDocRecords_doc_date
    (nameOf : String → String → Option String) (doc : SalesDoc) (r : SalesRecord)
    (hr : r ∈ correctionDocRecords nameOf doc) : r.doc_date = doc.date := by
  unfold correctionDocRecords at hr
  rw [List.mem_flatMap] at hr
  obtain ⟨item, _, hr⟩ := hr
  unfold correctionItemRecords at hr
  by_cases hkey : item.nomKey = "" ∨ item.nomKey = EMPTY_UUID
  · simp [hkey] at hr
  · simp only [hkey, if_false, List.mem_singleton] at hr
    subst hr
    rfl

theorem sync_sales_records_inWindow
    (nameOf : String → String → Option String) (salesDocs corrDocs : List SalesDoc)
    (lo hi : Int) :
    ∀ r ∈ sync_sales_records nameOf salesDocs corrDocs lo hi,
      inWindow lo hi r.doc_date = true := by
  intro r hr
  unfold sync_sales_records at hr
  rw [List.mem_append] at hr
  rcases hr with hr | hr
  · rw [List.mem_flatMap] at hr
    obtain ⟨doc, hdoc, hr⟩ := hr
    rw [List.mem_filter] at hdoc
    rw [mem_salesDocRecords_doc_date _ _ _ hr]
    exact hdoc.2
  · rw [List.mem_flatMap] at hr
    obtain ⟨doc, hdoc, hr⟩ := hr
    rw [List.mem_filter] at hdoc
    rw [mem_correctionDocRecords_doc_date _ _ _ hr]
    exact hdoc.2

/-- A windowed replace step (delete the window, insert `records`, with the
empty-records early return) is idempotent as soon as every inserted
record lies inside the window. -/
theorem replace_step_idem {ρ : Type} (win : ρ → Bool) (records db : List ρ)
    (h : ∀ r ∈ records, win r = true) :
    (if records.isEmpty then
        (if records.isEmpty then db else db.filter (fun r => ¬ win r) ++ records)
      else
        (if records.isEmpty then db
         else db.filter (fun r => ¬ win r) ++ records).filter (fun r => ¬ win r) ++ records)
    = (if records.isEmpty then db else db.filter (fun r => ¬ win r) ++ records) := by
  by_cases he : records.isEmpty
  · simp [he]
  · have h1 : records.filter (fun r => ¬ win r) = [] := by
      rw [List.filter_eq_nil_iff]
      intro a ha
      simp [h a ha]
    have h2 : ∀ d : List ρ,
        (d.filter (fun r => ¬ win r)).filter (fun r => ¬ win r)
          = d.filter (fun r => ¬ win r) := by
      intro d
      rw [List.filter_filter]
      apply List.filter_congr
      intro a _
      rcases Bool.eq_false_or_eq_true (win a) with hw | hw <;> simp [hw]
    simp [he, List.filter_append, h1, h2]
    exact h

/-- Evaluation of the purchases stage store effect as a plain windowed
replace. -/
theorem sync_purchases_store_eq (nameOf : String → String → Option String)
    (docs : List PurchaseDoc) (lo hi : Int) (db : List PurchaseRecord) :
    sync_purchases_store nameOf docs lo hi db
      = (if (sync_purchases_records nameOf docs lo hi).isEmpty then db
         else db.filter (fun r => ¬ inWindow lo hi r.doc_date)
           ++ sync_purchases_records nameOf docs lo hi) := by
  unfold sync_purchases_store save_purchases execDelete execInsert beginIfNeeded commitConn
  by_cases he : (sync_purchases_records nameOf docs lo hi).isEmpty <;> simp [he]

/-- Evaluation of the sales stage store effect as a plain windowed
replace. -/
theorem sync_sales_store_eq (nameOf : String → String → Option String)
    (salesDocs corrDocs : List SalesDoc) (lo hi : Int) (db : List SalesRecord) :
    sync_sales_store nameOf salesDocs corrDocs lo hi db
      = (if (sync_sales_records nameOf salesDocs corrDocs lo hi).isEmpty then db
         else db.filter (fun r => ¬ inWindow lo hi r.doc_date)
           ++ sync_sales_records nameOf salesDocs corrDocs lo hi) := by
  unfold sync_sales_store save_sales execDelete execInsert beginIfNeeded commitConn
  by_cases he : (sync_sales_records nameOf salesDocs corrDocs lo hi).isEmpty <;> simp [he]

/-- C7: running a windowed document sync (purchases or sales) twice over
the same window, against the same fetched documents and the same resolver
results, leaves the store's row set identical to running it once. -/
theorem windowed_sync_idempotent (nameOf : String → String → Option String)
    (pdocs : List PurchaseDoc) (sdocs cdocs : List SalesDoc) (lo hi : Int)
    (pdb : List PurchaseRecord) (sdb : List SalesRecord) :
    sync_purchases_store nameOf pdocs lo hi (sync_purchases_store nameOf pdocs lo hi pdb)
      = sync_purchases_store nameOf pdocs lo hi pdb
    ∧ sync_sales_store nameOf sdocs cdocs lo hi
        (sync_sales_store nameOf sdocs cdocs lo hi sdb)
      = sync_sales_store nameOf sdocs cdocs lo hi sdb := by
  constructor
  · rw [sync_purchases_store_eq, sync_purchases_store_eq]
    exact replace_step_idem _ _ pdb (sync_purchases_records_inWindow nameOf pdocs lo hi)
  · rw [sync_sales_store_eq, sync_sales_store_eq]
    exact replace_step_idem _ _ sdb (sync_sales_records_inWindow nameOf sdocs cdocs lo hi)

/-! ## Catalog stages (`sync_nomenclature_types` lines 255-295,
`sync_nomenclature` lines 297-371, `sync_clients` lines 373-412)

Each catalog stage fetches the whole catalog, returns early when the
fetch yielded nothing, and otherwise clears the table and re-inserts the
computed rows.  The `ON CONFLICT (id) DO UPDATE` clause can only fire for
duplicate `Ref_Key`s inside one batch (the table was just cleared); it is
modelled as a sequential keyed upsert with a per-table column-merge
function. -/

/-- `if parent_key == EMPTY_UUID: parent_key = None` (an absent key stays
absent; a non-sentinel key — even `''` — is kept). -/
def nullIfSentinel (k : Option String) : Option String :=
  match k with
  | some p => if p = EMPTY_UUID then none else some p
  | none => none

/-- Keyed upsert: the body of `INSERT ... ON CONFLICT (id) DO UPDATE` for
one row, with `merge old new` giving the updated row. -/
def upsertRow {ρ : Type} (key : ρ → String) (merge : ρ → ρ → ρ)
    (table : List ρ) (r : ρ) : List ρ :=
  if table.any (fun t => key t = key r) then
    table.map (fun t => if key t = key r then merge t r else t)
  else table ++ [r]

structure NomTypeItem where
  refKey : String := ""
  parentKey : Option String := none
  description : String := ""
  isFolder : Bool := false
deriving DecidableEq, Repr

/-- A row of `nomenclature_types`. -/
structure NomTypeRow where
  id : String
  parent_id : Option String
  name : String
  is_folder : Bool
deriving DecidableEq, Repr

/-- The `values` list built by `sync_nomenclature_types` (items with an
empty/sentinel `Ref_Key` are skipped). -/
def nomTypeValues (items : List NomTypeItem) : List NomTypeRow :=
  (items.filter (fun it => decide (it.refKey ≠ "" ∧ it.refKey ≠ EMPTY_UUID))).map
    (fun it => { id := it.refKey, parent_id := nullIfSentinel it.parentKey,
                 name := it.description, is_folder := it.isFolder })

/-- `Sync1C.sync_nomenclature_types`: early return on an empty fetch;
otherwise `DELETE FROM nomenclature_types` and insert the values
(its `DO UPDATE` sets every non-key column). -/
def sync_nomenclature_types (items : List NomTypeItem) (db : List NomTypeRow) :
    List NomTypeRow :=
  if items.isEmpty then db
  else
    let values := nomTypeValues items
    if values.isEmpty then []
    else values.foldl (upsertRow NomTypeRow.id (fun _ r => r)) []

structure NomItem where
  refKey : String := ""
  parentKey : Option String := none
  isFolder : Bool := false
  code : String := ""
  description : String := ""
  fullName : String := ""
  article : String := ""
  typeKey : Option String := none
  unitKey : Option String := none
  vesNum : Option ℚ := none
  vesDen : Option ℚ := none
deriving DecidableEq, Repr

/-- A row of `nomenclature`. -/
structure NomRow where
  id : String
  parent_id : Option String
  is_folder : Bool
  code : String
  name : String
  full_name : String
  article : String
  type_id : Option String
  unit_id : Option String
  unit_name : String
  weight : Option ℚ
  weight_unit : String
deriving DecidableEq, Repr

/-- The weight computation of `sync_nomenclature`: only when both
`ВесЧислитель` and `ВесЗнаменатель` are present and truthy, and the
denominator is positive. -/
def nomWeight (it : NomItem) : Option ℚ :=
  if numOr0 it.vesNum ≠ 0 ∧ numOr0 it.vesDen ≠ 0 then
    let num := numOr0 it.vesNum
    let den := if it.vesDen.getD 1 ≠ 0 then it.vesDen.getD 1 else 1
    if 0 < den then some (num / den) else none
  else none

/-- The `values` list built by `sync_nomenclature`. -/
def nomValues (items : List NomItem) : List NomRow :=
  (items.filter (fun it => decide (it.refKey ≠ "" ∧ it.refKey ≠ EMPTY_UUID))).map
    (fun it => { id := it.refKey, parent_id := nullIfSentinel it.parentKey,
                 is_folder := it.isFolder, code := it.code, name := it.description,
                 full_name := it.fullName, article := it.article,
                 type_id := nullIfSentinel it.typeKey, unit_id := nullIfSentinel it.unitKey,
                 unit_name := "", weight := nomWeight it, weight_unit := "" })

/-- The `DO UPDATE` of `sync_nomenclature` sets only `parent_id`, `name`,
`full_name`, `article`, `type_id` and `weight`. -/
def nomMerge (old new : NomRow) : NomRow :=
  { old with parent_id := new.parent_id, name := new.name, full_name := new.full_name,
             article := new.article, type_id := new.type_id, weight := new.weight }

/-- `Sync1C.sync_nomenclature`. -/
def sync_nomenclature (items : List NomItem) (db : List NomRow) : List NomRow :=
  if items.isEmpty then db
  else
    let values := nomValues items
    if values.isEmpty then []
    else values.foldl (upsertRow NomRow.id nomMerge) []

structure ClientItem where
  refKey : String := ""
  isFolder : Bool := false
  description : String := ""
  fullName : String := ""
  inn : String := ""
deriving DecidableEq, Repr

/-- A row of `clients`. -/
structure ClientRow where
  id : String
  name : String
  inn : String
deriving DecidableEq, Repr

/-- The `values` list built by `sync_clients` (empty/sentinel keys and
folders are skipped; the name falls back from `Description` to the full
name). -/
def clientValues (items : List ClientItem) : List ClientRow :=
  (items.filter (fun it =>
      decide (it.refKey ≠ "" ∧ it.refKey ≠ EMPTY_UUID) && !it.isFolder)).map
    (fun it => { id := it.refKey,
                 name := if it.description ≠ "" then it.description else it.fullName,
                 inn := it.inn })

/-- `Sync1C.sync_clients`. -/
def sync_clients (items : List ClientItem) (db : List ClientRow) : List ClientRow :=
  if items.isEmpty then db
  else
    let values := clientValues items
    if values.isEmpty then []
    else values.foldl (upsertRow ClientRow.id (fun _ r => r)) []

/-- C10: every stage with nothing to insert leaves its table untouched:
a catalog stage returns before its `DELETE` when the remote fetch yielded
zero items, and a document stage calls its `_save_*` (which performs the
windowed `DELETE`) only when flattening yielded at least one record. -/
theorem empty_fetch_leaves_store_unchanged
    (nameOf : String → String → Option String)
    (pdocs : List PurchaseDoc) (sdocs cdocs : List SalesDoc) (lo hi : Int)
    (tdb : List NomTypeRow) (ndb : List NomRow) (cdb : List ClientRow)
    (pdb : List PurchaseRecord) (sdb : List SalesRecord)
    (hp : sync_purchases_records nameOf pdocs lo hi = [])
    (hs : sync_sales_records nameOf sdocs cdocs lo hi = []) :
    sync_nomenclature_types [] tdb = tdb
    ∧ sync_nomenclature [] ndb = ndb
    ∧ sync_clients [] cdb = cdb
    ∧ sync_purchases_store nameOf pdocs lo hi pdb = pdb
    ∧ sync_sales_store nameOf sdocs cdocs lo hi sdb = sdb := by
  refine ⟨rfl, rfl, rfl, ?_, ?_⟩
  · rw [sync_purchases_store_eq, hp]
    rfl
  · rw [sync_sales_store_eq, hs]
    rfl

/-- A prior purchase row inside the window `[0, 10]`. -/
def c10Prior : PurchaseRecord :=
  { doc_date := some 5, doc_number := "1", contractor_id := none, contractor_name := none,
    nomenclature_id := some "n", nomenclature_name := none,
    quantity := 1, price := 2, sum_total := 2 }

/-- Witness for C10: with empty remote data, non-empty prior tables
survive every stage. -/
theorem empty_fetch_leaves_store_unchanged_witness :
    (sync_purchases_records (fun _ _ => none) [] 0 10 = []
      ∧ sync_sales_records (fun _ _ => none) [] [] 0 10 = [])
    ∧ sync_nomenclature_types [] [⟨"t", none, "x", false⟩] = [⟨"t", none, "x", false⟩]
    ∧ sync_clients [] [⟨"c", "x", "i"⟩] = [⟨"c", "x", "i"⟩]
    ∧ sync_purchases_store (fun _ _ => none) [] 0 10 [c10Prior] = [c10Prior]
    ∧ sync_sales_store (fun _ _ => none) [] [] 0 10 [c6Row] = [c6Row] :=
  have main := empty_fetch_leaves_store_unchanged (fun _ _ => none) [] [] [] 0 10
    [⟨"t", none, "x", false⟩] [] [⟨"c", "x", "i"⟩] [c10Prior] [c6Row] rfl rfl
  ⟨⟨rfl, rfl⟩, main.1, main.2.2.1, main.2.2.2.1, main.2.2.2.2⟩

/-! ## Resilient paginator (`Sync1C.get_all_documents`, lines 72-183)

`try_load(skip, top)` is modelled as a server function
`Nat → Nat → Option (List α)`: `none` is a failed request (non-200 or
exception), `some page` a successful one.  The mutable run state
(`all_docs`, `problem_docs`, `skip_positions`) is threaded explicitly;
`problem_docs` keeps just the problem positions (the neighbouring-record
lookups at lines 115-128 only decorate the log text and change no state,
so they are not modelled).  The unbounded `while True` loop is given
explicit fuel: `none` as a loop result means the fuel ran out before the
loop finished, so termination statements quantify over fuel. -/

structure PagState (α : Type) where
  all_docs : List α
  problem_docs : List Nat
  skip_positions : List Nat
deriving DecidableEq, Repr

/-- One iteration of the `for i in range(batch)` probe loop of
`find_problem_doc` (the `batch <= 10` branch): skip already-known
positions, record a failing position as a problem, append the single
document of a succeeding one. -/
def probeOne {α : Type} (try_load : Nat → Nat → Option (List α))
    (st : PagState α) (pos : Nat) : PagState α :=
  if pos ∈ st.skip_positions then st
  else
    match try_load pos 1 with
    | none =>
      { st with problem_docs := st.problem_docs ++ [pos],
                skip_positions := st.skip_positions ++ [pos] }
    | some docs => { st with all_docs := st.all_docs ++ docs }

/-- The whole probe loop over positions `start, …, start + batch - 1`. -/
def probeRange {α : Type} (try_load : Nat → Nat → Option (List α))
    (st : PagState α) (start batch : Nat) : PagState α :=
  (List.range batch).foldl (fun s i => probeOne try_load s (start + i)) st

/-- `find_problem_doc(start_skip, batch)` (lines 101-153): probe
one-by-one when the range is small, otherwise bisect, recursing into a
half exactly when its page request fails and appending its page when it
succeeds. -/
def find_problem_doc {α : Type} (try_load : Nat → Nat → Option (List α))
    (st : PagState α) (start batch : Nat) : PagState α :=
  if h : batch ≤ 10 then probeRange try_load st start batch
  else
    let st1 :=
      match try_load start (batch / 2) with
      | none => find_problem_doc try_load st start (batch / 2)
      | some docs => { st with all_docs := st.all_docs ++ docs }
    match try_load (start + batch / 2) (batch - batch / 2) with
    | none => find_problem_doc try_load st1 (start + batch / 2) (batch - batch / 2)
    | some docs => { st1 with all_docs := st1.all_docs ++ docs }
termination_by batch
decreasing_by
  · omega
  · omega

/-- The `while True` paging loop of `get_all_documents` (lines 155-175),
with explicit fuel: a failed page triggers `find_problem_doc` over the
batch and paging resumes at the next batch offset; an empty page ends the
loop; a short page is appended and ends the loop; a full page is appended
and paging continues. -/
def get_all_documents_loop {α : Type} (try_load : Nat → Nat → Option (List α))
    (batch_size : Nat) : Nat → Nat → PagState α → Option (PagState α)
  | 0, _, _ => none
  | fuel + 1, skip, st =>
    match try_load skip batch_size with
    | none =>
      get_all_documents_loop try_load batch_size fuel (skip + batch_size)
        (find_problem_doc try_load st skip batch_size)
    | some docs =>
      if docs.isEmpty then some st
      else
        let st1 := { st with all_docs := st.all_docs ++ docs }
        if docs.length < batch_size then some st1
        else get_all_documents_loop try_load batch_size fuel (skip + batch_size) st1

/-- `Sync1C.get_all_documents(entity, batch_size)` from offset 0 with an
empty state. -/
def get_all_documents {α : Type} (try_load : Nat → Nat → Option (List α))
    (batch_size fuel : Nat) : Option (PagState α) :=
  get_all_documents_loop try_load batch_size fuel 0 ⟨[], [], []⟩

/-- The paginator terminates on a given server behaviour iff some finite
fuel suffices for the loop to finish on its own. -/
def PaginatorTerminates {α : Type} (try_load : Nat → Nat → Option (List α))
    (batch_size : Nat) : Prop :=
  ∃ fuel, (get_all_documents try_load batch_size fuel).isSome

/-- The page of records `[s, min (s+t) N)` of a remote collection holding
records `0, …, N-1`. -/
def seg (N s t : Nat) : List Nat := List.range' s (min t (N - s))

/-- A simulated remote collection of `N` records (each record is its own
offset) in which a request fails exactly when its range covers the one
bad offset `f`, and otherwise returns its page. -/
def oneBadServer (N f : Nat) : Nat → Nat → Option (List Nat) :=
  fun s t => if s ≤ f ∧ f < s + t then none else some (seg N s t)

/-- A remote on which every request fails (server entirely down). -/
def allFailServer : Nat → Nat → Option (List Nat) := fun _ _ => none

/-! ## C5: termination of `get_all_documents` -/

/-- On an all-failing remote, the paging loop never finishes on its own:
every failed page only advances `skip` and the loop's exit conditions
(an empty or short successful page) are unreachable. -/
theorem allFail_loop_eq_none (fuel : Nat) :
    ∀ (skip : Nat) (st : PagState Nat),
      get_all_documents_loop allFailServer 500 fuel skip st = none := by
  induction fuel with
  | zero => intro skip st; rfl
  | succ n ih =>
    intro skip st
    simp only [get_all_documents_loop, allFailServer]
    exact ih _ _

/-- C5 (counterexample): the claim fails on the server behaviour in which
every page request fails permanently (remote entirely down): no amount of
fuel lets `get_all_documents` (with its default batch size 500) finish —
the `while True` loop runs forever. -/
theorem get_all_documents_nontermination_cex :
    ¬ PaginatorTerminates allFailServer 500 := by
  rintro ⟨fuel, h⟩
  rw [get_all_documents, allFail_loop_eq_none] at h
  simp at h

/-- With only `fuel` loop iterations allowed, the loop finishes whenever
requests at offsets `≥ N` yield an empty page and
`fuel > N - skip`: every non-final iteration advances `skip` by
`batch_size ≥ 1`, and at `skip ≥ N` the (successful, empty) page ends the
loop. -/
theorem get_all_documents_loop_isSome {α : Type}
    (try_load : Nat → Nat → Option (List α)) (bs N : Nat) (hbs : 1 ≤ bs)
    (hN : ∀ s t, N ≤ s → try_load s t = some []) :
    ∀ (f skip : Nat) (st : PagState α), N < skip + f + 1 →
      (get_all_documents_loop try_load bs (f + 1) skip st).isSome = true := by
  intro f
  induction f with
  | zero =>
    intro skip st hlt
    have hs : try_load skip bs = some [] := hN skip bs (by omega)
    simp [get_all_documents_loop, hs]
  | succ n ih =>
    intro skip st hlt
    simp only [get_all_documents_loop]
    match hreq : try_load skip bs with
    | none => exact ih (skip + bs) _ (by omega)
    | some docs =>
      by_cases hde : docs.isEmpty
      · simp [hde]
      · simp only [hde, if_false]
        by_cases hlen : docs.length < bs
        · simp [hlen]
        · simp only [hlen, if_false]
          exact ih (skip + bs) _ (by omega)

/-- C5 (amended): `get_all_documents` terminates, with the iteration
count bounded by the total remote record count, for every server
behaviour in which requests at or beyond the end of the `N`-record
collection succeed with an empty page — in particular whenever only
offsets inside the collection fail, however permanently.  (When every
request fails — the whole collection permanently unreachable — the loop
never terminates; see the counterexample.) -/
theorem get_all_documents_terminates_beyond_end {α : Type}
    (try_load : Nat → Nat → Option (List α)) (bs N : Nat) (hbs : 1 ≤ bs)
    (hN : ∀ s t, N ≤ s → try_load s t = some []) :
    (get_all_documents try_load bs (N + 2)).isSome = true := by
  rw [get_all_documents]
  exact get_all_documents_loop_isSome try_load bs N hbs hN (N + 1) 0 _ (by omega)

/-- A three-record remote whose in-range requests return a one-record
page and whose out-of-range requests return the empty page. -/
def threeRecordServer : Nat → Nat → Option (List Nat) :=
  fun s _ => if 3 ≤ s then some [] else some [s]

/-- Witness for C5 (amended) on `threeRecordServer`. -/
theorem get_all_documents_terminates_beyond_end_witness :
    (1 ≤ 1 ∧ ∀ s t, 3 ≤ s → threeRecordServer s t = some [])
    ∧ (get_all_documents threeRecordServer 1 5).isSome = true :=
  ⟨⟨le_refl 1, fun s _ h => by simp [threeRecordServer, h]⟩,
   get_all_documents_terminates_beyond_end threeRecordServer 1 3 (le_refl 1)
     (fun s _ h => by simp [threeRecordServer, h])⟩

/-! ## C3: fault isolation over a collection with one bad offset -/

theorem oneBadServer_miss (N f s t : Nat) (h : ¬ (s ≤ f ∧ f < s + t)) :
    oneBadServer N f s t = some (seg N s t) := by
  unfold oneBadServer
  rw [if_neg h]

theorem oneBadServer_hit (N f s t : Nat) (h1 : s ≤ f) (h2 : f < s + t) :
    oneBadServer N f s t = none := by
  unfold oneBadServer
  rw [if_pos ⟨h1, h2⟩]

theorem range'_append_one (s m n : Nat) :
    List.range' s m ++ List.range' (s + m) n = List.range' s (m + n) := by
  have h := List.range'_append s m n 1
  simpa [Nat.add_comm] using h

theorem mem_seg (N s t x : Nat) (hx : x ∈ seg N s t) : s ≤ x ∧ x < s + t ∧ x < N := by
  rw [seg, List.mem_range'_1] at hx
  omega

theorem seg_one (N pos : Nat) : seg N pos 1 = if pos < N then [pos] else [] := by
  rw [seg]
  by_cases h : pos < N
  · have hm : min 1 (N - pos) = 1 := by omega
    rw [hm, if_pos h]
    rfl
  · have hm : min 1 (N - pos) = 0 := by omega
    rw [hm, if_neg h]
    exact List.range'_zero

theorem seg_append (N s a b : Nat) : seg N s a ++ seg N (s + a) b = seg N s (a + b) := by
  unfold seg
  rcases le_or_lt a (N - s) with h1 | h1
  · rcases le_or_lt b (N - (s + a)) with h2 | h2
    · have ha : min a (N - s) = a := by omega
      have hb : min b (N - (s + a)) = b := by omega
      have hab : min (a + b) (N - s) = a + b := by omega
      rw [ha, hb, hab, range'_append_one]
    · have ha : min a (N - s) = a := by omega
      have hb : min b (N - (s + a)) = N - s - a := by omega
      have hab : min (a + b) (N - s) = N - s := by omega
      rw [ha, hb, hab, range'_append_one]
      congr 1
      omega
  · have ha : min a (N - s) = N - s := by omega
    have hb : min b (N - (s + a)) = 0 := by omega
    have hab : min (a + b) (N - s) = N - s := by omega
    rw [ha, hb, hab, List.range'_zero, List.append_nil]

/-- Splitting the tail of the collection at the next batch boundary. -/
theorem segFrom_split (N skip bs : Nat) :
    List.range' skip (N - skip) = seg N skip bs ++ List.range' (skip + bs) (N - (skip + bs)) := by
  unfold seg
  rcases le_or_lt bs (N - skip) with h | h
  · have hm : min bs (N - skip) = bs := by omega
    rw [hm, range'_append_one]
    congr 1
    omega
  · have hm : min bs (N - skip) = N - skip := by omega
    have h0 : N - (skip + bs) = 0 := by omega
    rw [hm, h0, List.range'_zero, List.append_nil]

theorem range'_filter_ne_of_lt (s n f : Nat) (h : f < s) :
    (List.range' s n).filter (fun x => x ≠ f) = List.range' s n := by
  rw [List.filter_eq_self]
  intro a ha
  rw [List.mem_range'_1] at ha
  simp only [ne_eq, decide_not, Bool.not_eq_eq_eq_not, Bool.not_true, decide_eq_false_iff_not]
  omega

theorem seg_filter_ne_self (N s t f : Nat) (h : f < s ∨ s + t ≤ f) :
    (seg N s t).filter (fun x => x ≠ f) = seg N s t := by
  rw [List.filter_eq_self]
  intro a ha
  have hb := mem_seg N s t a ha
  simp only [ne_eq, decide_not, Bool.not_eq_eq_eq_not, Bool.not_true, decide_eq_false_iff_not]
  omega

theorem seg_filter_bad_range (N s t f : Nat)
    (hall : ∀ x ∈ seg N s t, ¬ (x ≠ f)) :
    (seg N s t).filter (fun x => x ≠ f) = [] := by
  rw [List.filter_eq_nil_iff]
  intro a ha
  simpa using hall a ha

/-- Counting: removing the one bad offset from a contiguous block drops its
length by exactly one. -/
theorem range'_filter_ne_length (s n f : Nat) (h1 : s ≤ f) (h2 : f < s + n) :
    ((List.range' s n).filter (fun x => x ≠ f)).length = n - 1 := by
  induction n generalizing s with
  | zero => omega
  | succ m ih =>
    rw [List.range'_succ, List.filter_cons]
    by_cases hsf : s = f
    · subst hsf
      rw [if_neg (by simp)]
      rw [range'_filter_ne_of_lt (s + 1) m s (by omega)]
      simp [List.length_range']
    · rw [if_pos (by simp [hsf])]
      rw [List.length_cons, ih (s + 1) (by omega) (by omega)]
      omega

theorem probeOne_ok (N f : Nat) (st : PagState Nat) (pos : Nat)
    (hpos : pos ≠ f) (hsp : pos ∉ st.skip_positions) :
    probeOne (oneBadServer N f) st pos
      = { st with all_docs := st.all_docs ++ seg N pos 1 } := by
  unfold probeOne
  rw [if_neg hsp, oneBadServer_miss N f pos 1 (by omega)]

theorem probeOne_bad (N f : Nat) (st : PagState Nat) (hsp : f ∉ st.skip_positions) :
    probeOne (oneBadServer N f) st f
      = { st with problem_docs := st.problem_docs ++ [f],
                  skip_positions := st.skip_positions ++ [f] } := by
  unfold probeOne
  rw [if_neg hsp, oneBadServer_hit N f f 1 (le_refl f) (by omega)]

/-- The probe loop over a range that does not contain the bad offset
collects exactly the records of that range. -/
theorem probeRange_no_bad (N f : Nat) (start : Nat) :
    ∀ (batch : Nat) (st : PagState Nat), (f < start ∨ start + batch ≤ f) →
      (∀ i, i < batch → start + i ∉ st.skip_positions) →
      probeRange (oneBadServer N f) st start batch
        = { st with all_docs := st.all_docs ++ seg N start batch } := by
  intro batch
  induction batch with
  | zero =>
    intro st _ _
    have h0 : seg N start 0 = [] := by
      rw [seg]
      have : min 0 (N - start) = 0 := by omega
      rw [this]
      exact List.range'_zero
    rw [h0, List.append_nil]
    rfl
  | succ b ih =>
    intro st hf hsp
    rw [probeRange, List.range_succ, List.foldl_append, ← probeRange]
    rw [ih st (by omega) (fun i hi => hsp i (by omega))]
    rw [List.foldl_cons, List.foldl_nil]
    rw [probeOne_ok N f ⟨st.all_docs ++ seg N start b, st.problem_docs, st.skip_positions⟩
      (start + b) (by omega) (hsp b (by omega))]
    dsimp only
    rw [List.append_assoc, seg_append]

/-- The probe loop over a range containing the bad offset `f < N`
collects every record of the range except `f`, and records `f` once as a
problem position. -/
theorem probeRange_with_bad (N f : Nat) (hN : f < N) (start : Nat) :
    ∀ (batch : Nat) (st : PagState Nat), start ≤ f → f < start + batch →
      (∀ i, i < batch → start + i ∉ st.skip_positions) →
      probeRange (oneBadServer N f) st start batch
        = { all_docs := st.all_docs ++ (seg N start batch).filter (fun x => x ≠ f),
            problem_docs := st.problem_docs ++ [f],
            skip_positions := st.skip_positions ++ [f] } := by
  intro batch
  induction batch with
  | zero => intro st h1 h2 _; omega
  | succ b ih =>
    intro st h1 h2 hsp
    rw [probeRange, List.range_succ, List.foldl_append, ← probeRange]
    rw [List.foldl_cons, List.foldl_nil]
    by_cases hfb : f < start + b
    · rw [ih st h1 hfb (fun i hi => hsp i (by omega))]
      have hnotin : start + b ∉ st.skip_positions ++ [f] := by
        rw [List.mem_append, List.mem_singleton]
        push_neg
        exact ⟨hsp b (by omega), by omega⟩
      rw [probeOne_ok N f ⟨st.all_docs ++ (seg N start b).filter (fun x => x ≠ f),
          st.problem_docs ++ [f], st.skip_positions ++ [f]⟩ (start + b) (by omega) hnotin]
      dsimp only
      have hseg : (seg N start b).filter (fun x => x ≠ f) ++ seg N (start + b) 1
          = (seg N start (b + 1)).filter (fun x => x ≠ f) := by
        rw [← seg_append N start b 1, List.filter_append,
            seg_filter_ne_self N (start + b) 1 f (by omega)]
      rw [List.append_assoc, hseg]
    · have hfe : f = start + b := by omega
      rw [probeRange_no_bad N f start b st (by omega) (fun i hi => hsp i (by omega))]
      have hsp2 : f ∉ st.skip_positions := by
        have := hsp b (by omega)
        rw [← hfe] at this
        exact this
      rw [← hfe, probeOne_bad N f
        ⟨st.all_docs ++ seg N start b, st.problem_docs, st.skip_positions⟩ hsp2]
      dsimp only
      have hseg : st.all_docs ++ seg N start b
          = st.all_docs ++ (seg N start (b + 1)).filter (fun x => x ≠ f) := by
        rw [← seg_append N start b 1, List.filter_append,
            seg_filter_ne_self N start b f (by omega)]
        have h1seg : (seg N (start + b) 1).filter (fun x => x ≠ f) = [] := by
          rw [seg_one, if_pos (by omega : start + b < N)]
          rw [List.filter_eq_nil_iff]
          intro a ha
          rw [List.mem_singleton] at ha
          simp [ha, hfe]
        rw [h1seg, List.append_nil]
      rw [PagState.mk.injEq]
      exact ⟨hseg, rfl, rfl⟩

/-- `find_problem_doc` over a failing range containing the single bad
offset `f < N`: every other record of the range is recovered, `f` is
recorded once. -/
theorem find_problem_doc_one_bad (N f : Nat) (hN : f < N) :
    ∀ (batch : Nat) (st : PagState Nat) (start : Nat), start ≤ f → f < start + batch →
      (∀ i, i < batch → start + i ∉ st.skip_positions) →
      find_problem_doc (oneBadServer N f) st start batch
        = { all_docs := st.all_docs ++ (seg N start batch).filter (fun x => x ≠ f),
            problem_docs := st.problem_docs ++ [f],
            skip_positions := st.skip_positions ++ [f] } := by
  intro batch
  induction batch using Nat.strong_induction_on with
  | _ batch ih =>
    intro st start h1 h2 hsp
    rw [find_problem_doc]
    by_cases h10 : batch ≤ 10
    · rw [dif_pos h10]
      exact probeRange_with_bad N f hN start batch st h1 h2 hsp
    · rw [dif_neg h10]
      by_cases hfl : f < start + batch / 2
      · have e1 : oneBadServer N f start (batch / 2) = none :=
          oneBadServer_hit N f start (batch / 2) h1 hfl
        have e2 : oneBadServer N f (start + batch / 2) (batch - batch / 2)
            = some (seg N (start + batch / 2) (batch - batch / 2)) :=
          oneBadServer_miss N f (start + batch / 2) (batch - batch / 2) (by omega)
        simp only [e1, e2]
        rw [ih (batch / 2) (by omega) st start h1 hfl (fun i hi => hsp i (by omega))]
        dsimp only
        rw [PagState.mk.injEq]
        refine ⟨?_, rfl, rfl⟩
        rw [List.append_assoc]
        congr 1
        have hsum : batch / 2 + (batch - batch / 2) = batch := by omega
        have hseg : (seg N start batch).filter (fun x => x ≠ f)
            = (seg N start (batch / 2)).filter (fun x => x ≠ f)
              ++ seg N (start + batch / 2) (batch - batch / 2) := by
          conv_lhs => rw [← hsum, ← seg_append]
          rw [List.filter_append,
              seg_filter_ne_self N (start + batch / 2) (batch - batch / 2) f (by omega)]
        rw [hseg]
      · have e1 : oneBadServer N f start (batch / 2) = some (seg N start (batch / 2)) :=
          oneBadServer_miss N f start (batch / 2) (by omega)
        have e2 : oneBadServer N f (start + batch / 2) (batch - batch / 2) = none :=
          oneBadServer_hit N f (start + batch / 2) (batch - batch / 2) (by omega) (by omega)
        simp only [e1, e2]
        rw [ih (batch - batch / 2) (by omega)
          ⟨st.all_docs ++ seg N start (batch / 2), st.problem_docs, st.skip_positions⟩
          (start + batch / 2) (by omega) (by omega)
          (fun i hi => by
            have hmem := hsp (batch / 2 + i) (by omega)
            rwa [← Nat.add_assoc] at hmem)]
        dsimp only
        rw [PagState.mk.injEq]
        refine ⟨?_, rfl, rfl⟩
        rw [List.append_assoc]
        congr 1
        have hsum : batch / 2 + (batch - batch / 2) = batch := by omega
        have hseg : (seg N start batch).filter (fun x => x ≠ f)
            = seg N start (batch / 2)
              ++ (seg N (start + batch / 2) (batch - batch / 2)).filter (fun x => x ≠ f) := by
          conv_lhs => rw [← hsum, ← seg_append]
          rw [List.filter_append, seg_filter_ne_self N start (batch / 2) f (by omega)]
        rw [hseg]

theorem seg_length (N s t : Nat) : (seg N s t).length = min t (N - s) := by
  rw [seg, List.length_range']

theorem seg_empty_of_le (N skip bs : Nat) (h : N ≤ skip) : seg N skip bs = [] := by
  rw [seg]
  have hm : min bs (N - skip) = 0 := by omega
  rw [hm]
  exact List.range'_zero

theorem seg_isEmpty_false (N skip bs : Nat) (h1 : skip < N) (h2 : 1 ≤ bs) :
    (seg N skip bs).isEmpty = false := by
  rcases hb : (seg N skip bs).isEmpty
  · rfl
  · exfalso
    have hnil := List.isEmpty_iff.mp hb
    have := congrArg List.length hnil
    rw [seg_length] at this
    simp at this
    omega

/-- One unfolding step of the paging loop (kept as a lemma so proofs can
unfold exactly one iteration at a time). -/
theorem get_all_documents_loop_succ {α : Type} (try_load : Nat → Nat → Option (List α))
    (bs fuel skip : Nat) (st : PagState α) :
    get_all_documents_loop try_load bs (fuel + 1) skip st
      = match try_load skip bs with
        | none =>
          get_all_documents_loop try_load bs fuel (skip + bs)
            (find_problem_doc try_load st skip bs)
        | some docs =>
          if docs.isEmpty then some st
          else
            let st1 := { st with all_docs := st.all_docs ++ docs }
            if docs.length < bs then some st1
            else get_all_documents_loop try_load bs fuel (skip + bs) st1 := by
  simp only [get_all_documents_loop]

/-- Paging on, once the bad offset is strictly behind `skip`: every later
page succeeds and the loop collects the rest of the collection. -/
theorem loop_after_bad (N f bs : Nat) (hbs : 1 ≤ bs) (hN : f < N) :
    ∀ (fl skip : Nat) (st : PagState Nat), f < skip → N < skip + fl + 1 →
      get_all_documents_loop (oneBadServer N f) bs (fl + 1) skip st
        = some { st with all_docs := st.all_docs ++ List.range' skip (N - skip) } := by
  intro fl
  induction fl with
  | zero =>
    intro skip st hf hlt
    have e : oneBadServer N f skip bs = some (seg N skip bs) :=
      oneBadServer_miss N f skip bs (by omega)
    have hseg : seg N skip bs = [] := seg_empty_of_le N skip bs (by omega)
    have h0 : N - skip = 0 := by omega
    simp [get_all_documents_loop, e, hseg, h0]
  | succ n ih =>
    intro skip st hf hlt
    have e : oneBadServer N f skip bs = some (seg N skip bs) :=
      oneBadServer_miss N f skip bs (by omega)
    by_cases hsk : N ≤ skip
    · have hseg : seg N skip bs = [] := seg_empty_of_le N skip bs hsk
      have h0 : N - skip = 0 := by omega
      simp [get_all_documents_loop, e, hseg, h0]
    · have hempty : (seg N skip bs).isEmpty = false :=
        seg_isEmpty_false N skip bs (by omega) hbs
      by_cases hfull : bs ≤ N - skip
      · have hlen : ¬ ((seg N skip bs).length < bs) := by
          rw [seg_length]
          omega
        rw [get_all_documents_loop_succ]
        simp only [e, hempty, Bool.false_eq_true, if_false, hlen]
        rw [ih (skip + bs) ⟨st.all_docs ++ seg N skip bs, st.problem_docs, st.skip_positions⟩
          (by omega) (by omega)]
        dsimp only
        rw [List.append_assoc, ← segFrom_split]
      · have hlen : (seg N skip bs).length < bs := by
          rw [seg_length]
          omega
        have hseg2 : seg N skip bs = List.range' skip (N - skip) := by
          rw [seg]
          have hm : min bs (N - skip) = N - skip := by omega
          rw [hm]
        rw [get_all_documents_loop_succ]
        simp only [e, hempty, Bool.false_eq_true, if_false, hlen, if_true]
        rw [hseg2]

/-- The full paging run while the bad offset is still ahead: the failing
batch is isolated once and the rest of the collection is collected. -/
theorem loop_with_bad (N f bs : Nat) (hbs : 1 ≤ bs) (hN : f < N) :
    ∀ (fl skip : Nat) (st : PagState Nat), skip ≤ f → N < skip + fl + 1 →
      st.skip_positions = [] →
      get_all_documents_loop (oneBadServer N f) bs (fl + 1) skip st
        = some { all_docs := st.all_docs
                   ++ (List.range' skip (N - skip)).filter (fun x => x ≠ f),
                 problem_docs := st.problem_docs ++ [f],
                 skip_positions := st.skip_positions ++ [f] } := by
  intro fl
  induction fl with
  | zero => intro skip st h1 hlt _; omega
  | succ n ih =>
    intro skip st h1 hlt hsp
    by_cases hbad : f < skip + bs
    · have e : oneBadServer N f skip bs = none := oneBadServer_hit N f skip bs h1 hbad
      rw [get_all_documents_loop_succ]
      simp only [e]
      rw [find_problem_doc_one_bad N f hN bs st skip h1 hbad
        (fun i _ => by rw [hsp]; exact List.not_mem_nil _)]
      rw [loop_after_bad N f bs hbs hN n (skip + bs)
        ⟨st.all_docs ++ (seg N skip bs).filter (fun x => x ≠ f),
         st.problem_docs ++ [f], st.skip_positions ++ [f]⟩ (by omega) (by omega)]
      dsimp only
      rw [Option.some.injEq, PagState.mk.injEq]
      refine ⟨?_, rfl, rfl⟩
      rw [List.append_assoc]
      congr 1
      have hsplit : (List.range' skip (N - skip)).filter (fun x => x ≠ f)
          = (seg N skip bs).filter (fun x => x ≠ f)
            ++ List.range' (skip + bs) (N - (skip + bs)) := by
        rw [segFrom_split N skip bs, List.filter_append,
            range'_filter_ne_of_lt (skip + bs) _ f (by omega)]
      rw [hsplit]
    · have e : oneBadServer N f skip bs = some (seg N skip bs) :=
        oneBadServer_miss N f skip bs (by omega)
      have hempty : (seg N skip bs).isEmpty = false :=
        seg_isEmpty_false N skip bs (by omega) hbs
      have hlen : ¬ ((seg N skip bs).length < bs) := by
        rw [seg_length]
        omega
      rw [get_all_documents_loop_succ]
      simp only [e, hempty, Bool.false_eq_true, if_false, hlen]
      rw [ih (skip + bs) ⟨st.all_docs ++ seg N skip bs, st.problem_docs, st.skip_positions⟩
        (by omega) (by omega) hsp]
      dsimp only
      rw [Option.some.injEq, PagState.mk.injEq]
      refine ⟨?_, rfl, rfl⟩
      rw [List.append_assoc]
      congr 1
      have hsplit : (List.range' skip (N - skip)).filter (fun x => x ≠ f)
          = seg N skip bs
            ++ (List.range' (skip + bs) (N - (skip + bs))).filter (fun x => x ≠ f) := by
        rw [segFrom_split N skip bs, List.filter_append,
            seg_filter_ne_self N skip bs f (by omega)]
      rw [hsplit]

/-- C3: over a simulated remote collection of `N` records in which
requests covering exactly one fixed offset `f` always fail and all other
requests succeed, `get_all_documents` returns exactly the `N - 1` other
records and records exactly `f` as the one skipped problem position — for
every batch size of at least 1. -/
theorem get_all_documents_one_bad_offset (N f bs : Nat) (hbs : 1 ≤ bs) (hf : f < N) :
    get_all_documents (oneBadServer N f) bs (N + 2)
      = some { all_docs := (List.range' 0 N).filter (fun x => x ≠ f),
               problem_docs := [f], skip_positions := [f] }
    ∧ ((List.range' 0 N).filter (fun x => x ≠ f)).length = N - 1 := by
  constructor
  · rw [get_all_documents]
    have h := loop_with_bad N f bs hbs hf (N + 1) 0 ⟨[], [], []⟩ (by omega) (by omega) rfl
    simp only [Nat.sub_zero, List.nil_append] at h
    exact h
  · exact range'_filter_ne_length 0 N f (by omega) (by omega)

/-- Witness for C3: five records, bad offset 2, batch size 2. -/
theorem get_all_documents_one_bad_offset_witness :
    (1 ≤ 2 ∧ 2 < 5)
    ∧ get_all_documents (oneBadServer 5 2) 2 7
        = some { all_docs := (List.range' 0 5).filter (fun x => x ≠ 2),
                 problem_docs := [2], skip_positions := [2] }
    ∧ ((List.range' 0 5).filter (fun x => x ≠ 2)).length = 5 - 1 :=
  ⟨⟨by decide, by decide⟩,
   (get_all_documents_one_bad_offset 5 2 2 (by decide) (by decide)).1,
   (get_all_documents_one_bad_offset 5 2 2 (by decide) (by decide)).2⟩

/-! ## C4: what the sales fetch loops actually do on a batch failure

`sync_sales` fetches primary documents (lines 434-486) and corrections
(lines 499-543) with an identical loop that — unlike `get_all_documents`
used for purchases — performs no bisection: an HTTP 500 or an exception
skips the **whole** batch (`skip += batch_size`) and increments a
consecutive-error counter; ten consecutive errors end the loop; any other
non-200 status ends the loop; successful pages are date-filtered into the
window. -/

inductive FetchResp (α : Type) where
  | ok (docs : List α)
  | err500
  | errOther
  | exn
deriving DecidableEq, Repr

/-- The shared fetch loop of `sync_sales`, with explicit fuel (`none` =
fuel ran out).  `req skip top` models the page request at `$skip`/`$top`. -/
def sales_fetch_loop (req : Nat → Nat → FetchResp SalesDoc) (batch_size max_errors : Nat)
    (lo hi : Int) : Nat → Nat → Nat → List SalesDoc → Option (List SalesDoc)
  | 0, _, _, _ => none
  | fuel + 1, skip, consecutive_errors, acc =>
    if max_errors ≤ consecutive_errors then some acc
    else
      match req skip batch_size with
      | FetchResp.err500 =>
        sales_fetch_loop req batch_size max_errors lo hi fuel (skip + batch_size)
          (consecutive_errors + 1) acc
      | FetchResp.errOther => some acc
      | FetchResp.exn =>
        sales_fetch_loop req batch_size max_errors lo hi fuel (skip + batch_size)
          (consecutive_errors + 1) acc
      | FetchResp.ok docs =>
        if docs.isEmpty then some acc
        else
          let acc1 := acc ++ docs.filter (fun d => inWindow lo hi d.date)
          if docs.length < batch_size then some acc1
          else
            sales_fetch_loop req batch_size max_errors lo hi fuel (skip + batch_size) 0 acc1

/-- One unfolding step of the sales fetch loop. -/
theorem sales_fetch_loop_succ (req : Nat → Nat → FetchResp SalesDoc)
    (batch_size max_errors : Nat) (lo hi : Int) (fuel skip c : Nat) (acc : List SalesDoc) :
    sales_fetch_loop req batch_size max_errors lo hi (fuel + 1) skip c acc
      = if max_errors ≤ c then some acc
        else
          match req skip batch_size with
          | FetchResp.err500 =>
            sales_fetch_loop req batch_size max_errors lo hi fuel (skip + batch_size)
              (c + 1) acc
          | FetchResp.errOther => some acc
          | FetchResp.exn =>
            sales_fetch_loop req batch_size max_errors lo hi fuel (skip + batch_size)
              (c + 1) acc
          | FetchResp.ok docs =>
            if docs.isEmpty then some acc
            else
              let acc1 := acc ++ docs.filter (fun d => inWindow lo hi d.date)
              if docs.length < batch_size then some acc1
              else
                sales_fetch_loop req batch_size max_errors lo hi fuel (skip + batch_size)
                  0 acc1 := by
  simp only [sales_fetch_loop]

/-- The remote sales document at offset `i`, dated inside the window
`[0, 0]`. -/
def idxSalesDoc (i : Nat) : SalesDoc := { date := some 0, number := toString i }

/-- A five-record sales collection where exactly the page request
`$skip = 0, $top = 3` fails with HTTP 500; every other request — in
particular every single-record request — succeeds. -/
def c4Server : Nat → Nat → FetchResp SalesDoc :=
  fun skip top =>
    if skip = 0 ∧ top = 3 then FetchResp.err500
    else FetchResp.ok ((seg 5 skip top).map idxSalesDoc)

/-- C4 (counterexample): in the primary-sales fetch loop (batch size 3
here), the failing first batch is discarded wholesale: the loop returns
only records 3 and 4, excluding records 0, 1 and 2 even though each of
them is individually fetchable (`c4Server 0 1` succeeds) — no bisection
fault isolation happens in this stage. -/
theorem sales_batch_failure_discards_whole_batch_cex :
    c4Server 0 1 = FetchResp.ok [idxSalesDoc 0]
    ∧ sales_fetch_loop c4Server 3 10 0 0 3 0 0 []
        = some [idxSalesDoc 3, idxSalesDoc 4]
    ∧ idxSalesDoc 0 ∉ [idxSalesDoc 3, idxSalesDoc 4] := by
  refine ⟨by decide, by decide, by decide⟩

/-- Window filtering is the identity on pages of `idxSalesDoc`s. -/
theorem idx_filter_window (l : List Nat) :
    (l.map idxSalesDoc).filter (fun d => inWindow 0 0 d.date) = l.map idxSalesDoc := by
  rw [List.filter_eq_self]
  intro a ha
  rw [List.mem_map] at ha
  obtain ⟨i, _, hi⟩ := ha
  subst hi
  rfl

theorem map_seg_isEmpty_false (N skip bs : Nat) (h1 : skip < N) (h2 : 1 ≤ bs) :
    ((seg N skip bs).map idxSalesDoc).isEmpty = false := by
  rcases hb : ((seg N skip bs).map idxSalesDoc).isEmpty
  · rfl
  · exfalso
    have hnil := List.isEmpty_iff.mp hb
    have := congrArg List.length hnil
    rw [List.length_map, seg_length] at this
    simp at this
    omega

/-- A sales remote of `N` records in which exactly the batch starting at
offset `bs * K` always fails with HTTP 500. -/
def oneBatch500Server (N bs K : Nat) : Nat → Nat → FetchResp SalesDoc :=
  fun skip top =>
    if skip = bs * K then FetchResp.err500
    else FetchResp.ok ((seg N skip top).map idxSalesDoc)

/-- Past the failing batch, the sales loop collects the whole remainder
of the collection. -/
theorem sales_loop_after_bad (N bs K : Nat) (hbs : 1 ≤ bs) :
    ∀ (fl skip c : Nat) (acc : List SalesDoc), bs * K < skip → c < 10 →
      N < skip + fl + 1 →
      sales_fetch_loop (oneBatch500Server N bs K) bs 10 0 0 (fl + 1) skip c acc
        = some (acc ++ (List.range' skip (N - skip)).map idxSalesDoc) := by
  intro fl
  induction fl with
  | zero =>
    intro skip c acc hK hc hlt
    have hsk : N ≤ skip := by omega
    rw [sales_fetch_loop_succ, if_neg (by omega)]
    have e : oneBatch500Server N bs K skip bs
        = FetchResp.ok ((seg N skip bs).map idxSalesDoc) := by
      unfold oneBatch500Server
      rw [if_neg (by omega)]
    simp only [e]
    rw [seg_empty_of_le N skip bs hsk]
    simp [Nat.sub_eq_zero_of_le hsk, List.range'_zero]
  | succ n ih =>
    intro skip c acc hK hc hlt
    rw [sales_fetch_loop_succ, if_neg (by omega)]
    have e : oneBatch500Server N bs K skip bs
        = FetchResp.ok ((seg N skip bs).map idxSalesDoc) := by
      unfold oneBatch500Server
      rw [if_neg (by omega)]
    simp only [e]
    by_cases hsk : N ≤ skip
    · rw [seg_empty_of_le N skip bs hsk]
      simp [Nat.sub_eq_zero_of_le hsk, List.range'_zero]
    · have hempty := map_seg_isEmpty_false N skip bs (by omega) hbs
      by_cases hfull : bs ≤ N - skip
      · have hlen : ¬ (((seg N skip bs).map idxSalesDoc).length < bs) := by
          rw [List.length_map, seg_length]
          omega
        simp only [hempty, Bool.false_eq_true, if_false, hlen, idx_filter_window]
        rw [ih (skip + bs) 0 (acc ++ (seg N skip bs).map idxSalesDoc) (by omega) (by omega)
          (by omega)]
        rw [List.append_assoc, ← List.map_append, ← segFrom_split]
      · have hlen : ((seg N skip bs).map idxSalesDoc).length < bs := by
          rw [List.length_map, seg_length]
          omega
        have hseg2 : seg N skip bs = List.range' skip (N - skip) := by
          rw [seg]
          have hm : min bs (N - skip) = N - skip := by omega
          rw [hm]
        simp only [hempty, Bool.false_eq_true, if_false, hlen, if_true, idx_filter_window]
        rw [hseg2]

/-- The full sales fetch run with the failing batch still ahead: healthy
full batches accumulate, the failing batch is skipped wholesale, and
paging continues to the end. -/
theorem sales_loop_with_bad (N bs K : Nat) (hbs : 1 ≤ bs) (hKN : bs * K < N) :
    ∀ (fl j : Nat) (acc : List SalesDoc), j ≤ K → N < bs * j + fl + 1 →
      sales_fetch_loop (oneBatch500Server N bs K) bs 10 0 0 (fl + 1) (bs * j) 0 acc
        = some (acc ++ ((List.range' (bs * j) (N - bs * j)).filter
            (fun i => ¬ (bs * K ≤ i ∧ i < bs * K + bs))).map idxSalesDoc) := by
  intro fl
  induction fl with
  | zero =>
    intro j acc hj hlt
    have hmono : bs * j ≤ bs * K := Nat.mul_le_mul_left bs hj
    omega
  | succ n ih =>
    intro j acc hj hlt
    rw [sales_fetch_loop_succ, if_neg (by omega)]
    by_cases hjK : j = K
    · rw [hjK] at hlt ⊢
      have e : oneBatch500Server N bs K (bs * K) bs = FetchResp.err500 := by
        unfold oneBatch500Server
        rw [if_pos rfl]
      simp only [e]
      rw [sales_loop_after_bad N bs K hbs n (bs * K + bs) 1 acc (by omega) (by omega)
        (by omega)]
      have hl : (seg N (bs * K) bs).filter
            (fun i => ¬ (bs * K ≤ i ∧ i < bs * K + bs)) = [] := by
        rw [List.filter_eq_nil_iff]
        intro a ha
        have hb := mem_seg N (bs * K) bs a ha
        simp only [decide_eq_true_eq, Decidable.not_not]
        omega
      have hr : (List.range' (bs * K + bs) (N - (bs * K + bs))).filter
            (fun i => ¬ (bs * K ≤ i ∧ i < bs * K + bs))
          = List.range' (bs * K + bs) (N - (bs * K + bs)) := by
        rw [List.filter_eq_self]
        intro a ha
        rw [List.mem_range'_1] at ha
        simp only [decide_eq_true_eq]
        omega
      have hsplit : (List.range' (bs * K) (N - bs * K)).filter
            (fun i => ¬ (bs * K ≤ i ∧ i < bs * K + bs))
          = List.range' (bs * K + bs) (N - (bs * K + bs)) := by
        rw [segFrom_split N (bs * K) bs, List.filter_append, hl, hr, List.nil_append]
      rw [hsplit]
    · have hjK' : j < K := by omega
      have e : oneBatch500Server N bs K (bs * j) bs
          = FetchResp.ok ((seg N (bs * j) bs).map idxSalesDoc) := by
        unfold oneBatch500Server
        rw [if_neg (fun h => hjK (Nat.eq_of_mul_eq_mul_left (by omega) h))]
      simp only [e]
      have hstep : bs * (j + 1) = bs * j + bs := Nat.mul_succ bs j
      have hle : bs * (j + 1) ≤ bs * K := Nat.mul_le_mul_left bs (by omega)
      have hfull : bs ≤ N - bs * j := by omega
      have hempty := map_seg_isEmpty_false N (bs * j) bs (by omega) hbs
      have hlen : ¬ (((seg N (bs * j) bs).map idxSalesDoc).length < bs) := by
        rw [List.length_map, seg_length]
        omega
      simp only [hempty, Bool.false_eq_true, if_false, hlen, idx_filter_window]
      have hrec : bs * j + bs = bs * (j + 1) := hstep.symm
      rw [hrec]
      rw [ih (j + 1) (acc ++ (seg N (bs * j) bs).map idxSalesDoc) (by omega) (by omega)]
      have hleft : (seg N (bs * j) bs).filter
            (fun i => ¬ (bs * K ≤ i ∧ i < bs * K + bs)) = seg N (bs * j) bs := by
        rw [List.filter_eq_self]
        intro a ha
        have hb := mem_seg N (bs * j) bs a ha
        simp only [decide_eq_true_eq]
        omega
      have hsplit : (List.range' (bs * j) (N - bs * j)).filter
            (fun i => ¬ (bs * K ≤ i ∧ i < bs * K + bs))
          = seg N (bs * j) bs
            ++ (List.range' (bs * (j + 1)) (N - bs * (j + 1))).filter
                (fun i => ¬ (bs * K ≤ i ∧ i < bs * K + bs)) := by
        rw [segFrom_split N (bs * j) bs, List.filter_append, hleft, hrec]
      rw [hsplit, List.map_append, List.append_assoc]

/-- C4 (amended): only the purchases stage (`get_all_documents`) performs
recursive bisection fault isolation, so that at most the individually
unfetchable record is excluded there; in the primary-sales and
corrections fetch loops a failed (HTTP 500) page request discards the
**whole** batch — every record of the failing batch is excluded, even
individually fetchable ones — and fetching continues with the next batch
(stopping early only after ten consecutive batch failures or a non-500
HTTP error). -/
theorem fault_isolation_only_in_purchases :
    (∀ (N f bs : Nat), 1 ≤ bs → f < N →
      get_all_documents (oneBadServer N f) bs (N + 2)
        = some { all_docs := (List.range' 0 N).filter (fun x => x ≠ f),
                 problem_docs := [f], skip_positions := [f] })
    ∧ (∀ (N bs K : Nat), 1 ≤ bs → bs * K < N →
      sales_fetch_loop (oneBatch500Server N bs K) bs 10 0 0 (N + 2) 0 0 []
        = some (((List.range' 0 N).filter
            (fun i => ¬ (bs * K ≤ i ∧ i < bs * K + bs))).map idxSalesDoc)) := by
  constructor
  · intro N f bs hbs hf
    rw [get_all_documents]
    have h := loop_with_bad N f bs hbs hf (N + 1) 0 ⟨[], [], []⟩ (by omega) (by omega) rfl
    simp only [Nat.sub_zero, List.nil_append] at h
    exact h
  · intro N bs K hbs hKN
    have h := sales_loop_with_bad N bs K hbs hKN (N + 1) 0 [] (by omega)
      (by simp only [Nat.mul_zero]; omega)
    simp only [Nat.mul_zero, Nat.sub_zero, List.nil_append] at h
    exact h

/-- Witness for C4 (amended): five records with bad offset 2 / batch size
2 for purchases, and five records with the failing batch `[2, 4)` for
sales. -/
theorem fault_isolation_only_in_purchases_witness :
    ((1 ≤ 2 ∧ 2 < 5)
      ∧ get_all_documents (oneBadServer 5 2) 2 7
          = some { all_docs := (List.range' 0 5).filter (fun x => x ≠ 2),
                   problem_docs := [2], skip_positions := [2] })
    ∧ ((1 ≤ 2 ∧ 2 * 1 < 5)
      ∧ sales_fetch_loop (oneBatch500Server 5 2 1) 2 10 0 0 7 0 0 []
          = some (((List.range' 0 5).filter
              (fun i => ¬ (2 * 1 ≤ i ∧ i < 2 * 1 + 2))).map idxSalesDoc)) :=
  ⟨⟨⟨by decide, by decide⟩, fault_isolation_only_in_purchases.1 5 2 2 (by decide) (by decide)⟩,
   ⟨⟨by decide, by decide⟩, fault_isolation_only_in_purchases.2 5 2 1 (by decide) (by decide)⟩⟩
